import Mathlib

/-!
Verification development for the race-sim repository's Timeline Engine and
Playback Engine.  Numbers are modelled as exact rationals (`ℚ`); the
JavaScript values `NaN` and `±Infinity`, which arise from failed parses,
are modelled explicitly by the `JsNum` type where they can occur.
Float rounding is not modelled: all arithmetic in the program stays well
within the exactly-representable range of IEEE doubles for the inputs the
claims are about.
-/

set_option maxRecDepth 2048

namespace RaceSim

/-- A JavaScript number: `NaN`, a signed infinity, or a finite value
(modelled exactly as a rational). -/
inductive JsNum where
  | nan : JsNum
  | inf : Bool → JsNum
  | num : ℚ → JsNum
deriving DecidableEq

/-- JavaScript addition on `JsNum` (the cases reachable from parsing). -/
def jsAdd : JsNum → JsNum → JsNum
  | .nan, _ => .nan
  | _, .nan => .nan
  | .inf p, .inf q => if p = q then .inf p else .nan
  | .inf p, .num _ => .inf p
  | .num _, .inf q => .inf q
  | .num a, .num b => .num (a + b)

/-- JavaScript multiplication on `JsNum`. -/
def jsMul : JsNum → JsNum → JsNum
  | .nan, _ => .nan
  | _, .nan => .nan
  | .inf p, .inf q => .inf (p == q)
  | .inf p, .num b => if b = 0 then .nan else .inf (p == decide (0 < b))
  | .num a, .inf q => if a = 0 then .nan else .inf (q == decide (0 < a))
  | .num a, .num b => .num (a * b)

/-- The whitespace characters skipped by `parseFloat` / `parseInt`
(the common ones; exotic Unicode space code points are not modelled). -/
def isJsWhitespace (c : Char) : Bool :=
  c == ' ' || c == '\t' || c == '\n' || c == '\r' || c == '\x0b' || c == '\x0c'

/-- Decimal digit run to a natural number. -/
def digitsToNat (ds : List Char) : ℕ :=
  ds.foldl (fun acc c => acc * 10 + (c.toNat - 48)) 0

/-- Reads an optional sign; returns `true` for non-negative. -/
def readSign : List Char → Bool × List Char
  | '-' :: rest => (false, rest)
  | '+' :: rest => (true, rest)
  | cs => (true, cs)

/-- The exponent part after a mantissa, per `parseFloat`'s grammar:
`e`/`E`, an optional sign, and at least one digit; otherwise the
exponent marker is not part of the parsed number and contributes 0. -/
def parseExpTail (cs : List Char) : ℤ :=
  match cs with
  | '+' :: rest =>
      if rest.takeWhile Char.isDigit = [] then 0
      else (digitsToNat (rest.takeWhile Char.isDigit) : ℤ)
  | '-' :: rest =>
      if rest.takeWhile Char.isDigit = [] then 0
      else -(digitsToNat (rest.takeWhile Char.isDigit) : ℤ)
  | rest =>
      if rest.takeWhile Char.isDigit = [] then 0
      else (digitsToNat (rest.takeWhile Char.isDigit) : ℤ)

/-- Dispatch on the `e`/`E` exponent marker. -/
def parseExp (cs : List Char) : ℤ :=
  match cs with
  | 'e' :: rest => parseExpTail rest
  | 'E' :: rest => parseExpTail rest
  | _ => 0

/-- `10 ^ e` over `ℚ` for an integer exponent, written out so that it
reduces in the kernel. -/
def pow10 (e : ℤ) : ℚ :=
  match e with
  | .ofNat n => (10 : ℚ) ^ n
  | .negSucc n => 1 / (10 : ℚ) ^ (n + 1)

/-- The outcome of scanning a string with `parseFloat`'s grammar, before
any numeric interpretation: `NaN`, a signed `Infinity`, or a finite
literal given by sign, integer digits, fraction digits (with their
count, to fix the scale), and exponent. -/
inductive FloatScan where
  | nan : FloatScan
  | inf : Bool → FloatScan
  | finite : Bool → ℕ → ℕ → ℕ → ℤ → FloatScan
deriving DecidableEq

/-- The scanning phase of JavaScript `parseFloat`: skip whitespace,
optional sign, then the longest `Infinity` / decimal-literal run; `NaN`
when no number starts the string. -/
def scanFloat (s : List Char) : FloatScan :=
  let cs := s.dropWhile isJsWhitespace
  let sign := readSign cs
  if sign.2.take 8 = "Infinity".data then .inf sign.1
  else
    let ip := sign.2.takeWhile Char.isDigit
    let rest1 := sign.2.dropWhile Char.isDigit
    if ip = [] then
      match rest1 with
      | '.' :: rest2 =>
          let fp := rest2.takeWhile Char.isDigit
          let rest3 := rest2.dropWhile Char.isDigit
          if fp = [] then .nan
          else .finite sign.1 0 (digitsToNat fp) fp.length (parseExp rest3)
      | _ => .nan
    else
      match rest1 with
      | '.' :: rest2 =>
          let fp := rest2.takeWhile Char.isDigit
          let rest3 := rest2.dropWhile Char.isDigit
          .finite sign.1 (digitsToNat ip) (digitsToNat fp) fp.length (parseExp rest3)
      | _ => .finite sign.1 (digitsToNat ip) 0 0 (parseExp rest1)

/-- Numeric interpretation of a `parseFloat` scan:
`sign * (intPart + fracPart / 10 ^ fracLen) * 10 ^ exponent`. -/
def floatValue : FloatScan → JsNum
  | .nan => .nan
  | .inf p => .inf p
  | .finite p ip fp fpLen e =>
      .num ((if p then 1 else -1) * ((ip : ℚ) + (fp : ℚ) / pow10 (fpLen : ℤ)) *
        pow10 e)

/-- JavaScript `parseFloat` on a character list. -/
def jsParseFloatChars (s : List Char) : JsNum :=
  floatValue (scanFloat s)

/-- `parseFloat` on a `String`. -/
def jsParseFloat (s : String) : JsNum :=
  jsParseFloatChars s.data

/-- JavaScript `parseInt(s, 10)` on a character list: skip whitespace,
optional sign, decimal digit run; `NaN` (modelled `none`) when no digit
follows. -/
def jsParseIntChars (s : List Char) : Option ℤ :=
  let cs := s.dropWhile isJsWhitespace
  let sign := readSign cs
  let ds := sign.2.takeWhile Char.isDigit
  if ds = [] then none
  else some (if sign.1 then (digitsToNat ds : ℤ) else -(digitsToNat ds : ℤ))

/-- `parseInt(s, 10)` on a `String`. -/
def jsParseInt (s : String) : Option ℤ :=
  jsParseIntChars s.data

/-- JavaScript `String.prototype.split(":")` on a character list: the
maximal runs between occurrences of `:` (empty runs included). -/
def splitOnColon (cs : List Char) : List (List Char) :=
  match cs with
  | [] => [[]]
  | c :: rest =>
      let r := splitOnColon rest
      if c = ':' then [] :: r
      else
        match r with
        | [] => [[c]]
        | h :: t => (c :: h) :: t

/-- `lapTimeToMs` from the lap-processing service: an empty (falsy) string
yields 0; a string containing exactly one `:` is read as
`(parseInt(minutes) * 60 + parseFloat(seconds)) * 1000`; any other string
is read as `parseFloat(text) * 1000`. -/
def lapTimeToMs (timeStr : String) : JsNum :=
  if timeStr = "" then .num 0
  else
    let parts := splitOnColon timeStr.data
    if parts.length = 2 then
      let minutes : JsNum :=
        match jsParseIntChars (parts.getD 0 []) with
        | some m => .num (m : ℚ)
        | none => .nan
      let seconds := jsParseFloatChars (parts.getD 1 [])
      jsMul (jsAdd (jsMul minutes (.num 60)) seconds) (.num 1000)
    else
      jsMul (jsParseFloatChars timeStr.data) (.num 1000)

/-- A single driver's timing entry of one lap (`LapData` in the source;
the raw `time` text is carried only for display and is omitted here). -/
structure LapData where
  driverId : String
  lap : ℤ
  position : ℤ
  timeInMs : ℚ
deriving DecidableEq

/-- All timing entries of one lap (`LapTiming` in the source). -/
structure LapTiming where
  lap : ℤ
  timings : List LapData
deriving DecidableEq

/-- One processed lap of a driver's series. -/
structure ProcessedLap where
  lap : ℤ
  position : ℤ
  timeInMs : ℚ
  cumulativeTimeInMs : ℚ
  progressPerLap : ℚ
  speedFactor : ℚ
deriving DecidableEq

/-- A driver's processed lap series (`ProcessedLapData` in the source). -/
structure ProcessedLapData where
  driverId : String
  laps : List ProcessedLap
deriving DecidableEq

/-- A pit stop record (string fields for display omitted). -/
structure PitStop where
  driverId : String
  lap : ℤ
  stop : ℤ
  durationInMs : ℚ
deriving DecidableEq

/-- `Map.prototype.set` on an insertion-ordered association list: updating
an existing key keeps its place, a fresh key is appended.  This models
the iteration-order semantics of a JavaScript `Map`. -/
def setAssoc {κ β : Type} [DecidableEq κ] (k : κ) (v : β) :
    List (κ × β) → List (κ × β)
  | [] => [(k, v)]
  | (k2, v2) :: rest =>
      if k2 = k then (k, v) :: rest else (k2, v2) :: setAssoc k v rest

/-- Running total and count of the positive lap times, accumulated in the
iteration order of `calculateDriverLapData`'s first pass. -/
def lapTimeStats (lapTimings : List LapTiming) : ℚ × ℕ :=
  lapTimings.foldl
    (fun acc lt =>
      lt.timings.foldl
        (fun acc2 timing =>
          if 0 < timing.timeInMs then (acc2.1 + timing.timeInMs, acc2.2 + 1)
          else acc2)
        acc)
    (0, 0)

/-- The global average lap time over all valid samples, defaulting to
90000 ms when no sample is positive. -/
def averageLapTime (lapTimings : List LapTiming) : ℚ :=
  let s := lapTimeStats lapTimings
  if 0 < s.2 then s.1 / (s.2 : ℚ) else 90000

/-- The per-driver pass of `calculateDriverLapData`: walk the lap-timing
entries in order, pick the driver's timing of each entry if present,
accumulate the cumulative time and clamp the speed factor to `[0.5, 1.5]`. -/
def driverLapsGo (avg : ℚ) (driverId : String) :
    List LapTiming → ℚ → List ProcessedLap
  | [], _ => []
  | lt :: rest, cum =>
      match lt.timings.find? (fun t => t.driverId == driverId) with
      | some timing =>
          let c := cum + timing.timeInMs
          let speedFactor := avg / timing.timeInMs
          ⟨timing.lap, timing.position, timing.timeInMs, c, 100,
            max 0.5 (min 1.5 speedFactor)⟩ :: driverLapsGo avg driverId rest c
      | none => driverLapsGo avg driverId rest cum

/-- `calculateDriverLapData` from the lap-processing service. -/
def calculateDriverLapData (lapTimings : List LapTiming)
    (driverIds : List String) : List ProcessedLapData :=
  let avg := averageLapTime lapTimings
  driverIds.map (fun driverId => ⟨driverId, driverLapsGo avg driverId lapTimings 0⟩)

/-- Inner loop of `calculateRaceDuration` over one lap's timings,
threading the per-driver running totals and the maximum seen. -/
def raceDurationLap : List LapData → List (String × ℚ) → ℚ →
    List (String × ℚ) × ℚ
  | [], times, maxTime => (times, maxTime)
  | timing :: ts, times, maxTime =>
      let newTime := (times.lookup timing.driverId).getD 0 + timing.timeInMs
      raceDurationLap ts (setAssoc timing.driverId newTime times)
        (if maxTime < newTime then newTime else maxTime)

/-- Outer loop of `calculateRaceDuration`. -/
def raceDurationGo : List LapTiming → List (String × ℚ) → ℚ → ℚ
  | [], _, maxTime => maxTime
  | lt :: rest, times, maxTime =>
      let r := raceDurationLap lt.timings times maxTime
      raceDurationGo rest r.1 r.2

/-- `calculateRaceDuration`: the maximum cumulative race time over all
drivers (0 for an empty lap list). -/
def calculateRaceDuration (lapTimings : List LapTiming) : ℚ :=
  if lapTimings = [] then 0 else raceDurationGo lapTimings [] 0

/-- The result triple of `interpolatePosition`. -/
structure InterpResult where
  lap : ℤ
  progress : ℚ
  position : ℤ
deriving DecidableEq

/-- The lap-location scan of `interpolatePosition`: the first lap whose
cumulative time is ≥ the target time, with the progress within it.
(The JavaScript division yields `±Infinity`/`NaN` for a zero-duration
lap, which only affects the `progress` field; `ℚ` division models the
well-defined cases, and no theorem below depends on `progress` at a
zero-duration lap.) -/
def interpGo (targetTimeMs : ℚ) : List ProcessedLap → ℚ → Option InterpResult
  | [], _ => none
  | cl :: rest, prevCum =>
      if targetTimeMs ≤ cl.cumulativeTimeInMs then
        some ⟨cl.lap, min 100 (max 0 ((targetTimeMs - prevCum) / cl.timeInMs * 100)),
          cl.position⟩
      else interpGo targetTimeMs rest cl.cumulativeTimeInMs

/-- `interpolatePosition` from the lap-processing service (its `totalLaps`
argument is unused in the source body and kept for signature fidelity). -/
def interpolatePosition (pd : ProcessedLapData) (targetTimeMs : ℚ)
    (_totalLaps : ℤ) : InterpResult :=
  if pd.laps = [] then ⟨0, 0, 0⟩
  else
    match interpGo targetTimeMs pd.laps 0 with
    | some r => r
    | none =>
        match pd.laps.getLast? with
        | some lastLap => ⟨lastLap.lap, 100, lastLap.position⟩
        | none => ⟨0, 0, 0⟩

/-- The five race-event categories of the event-manager service
(`lap_complete`, `pitstop`, `overtake`, `dnf`, `fastest_lap`). -/
inductive RaceEventType where
  | lapComplete : RaceEventType
  | pitstop : RaceEventType
  | overtake : RaceEventType
  | dnf : RaceEventType
  | fastestLap : RaceEventType
deriving DecidableEq

/-- The optional payload fields of a race event. -/
structure EventData where
  position : Option ℤ := none
  previousPosition : Option ℤ := none
  overtakenDriverId : Option String := none
  lapTime : Option ℚ := none
  pitDuration : Option ℚ := none
  dnfReason : Option String := none
deriving DecidableEq

/-- A race event. -/
structure RaceEvent where
  type : RaceEventType
  lap : ℤ
  timeInMs : ℚ
  driverId : String
  data : EventData
deriving DecidableEq

/-- Insertion into a time-sorted event list, before the first event of
equal-or-later time (this keeps equal-time events in presentation order,
matching the stability of `Array.prototype.sort`). -/
def insertByTime (x : RaceEvent) : List RaceEvent → List RaceEvent
  | [] => [x]
  | y :: ys =>
      if x.timeInMs ≤ y.timeInMs then x :: y :: ys else y :: insertByTime x ys

/-- Stable sort of events by ascending `timeInMs`, modelling the stable
`events.sort((a, b) => a.timeInMs - b.timeInMs)`. -/
def sortByTime (l : List RaceEvent) : List RaceEvent :=
  l.foldr insertByTime []

/-- Inner loop of `createLapCompleteEvents` over one lap's timings,
threading the per-driver cumulative times. -/
def lapCompleteLap : List LapData → List (String × ℚ) →
    List (String × ℚ) × List RaceEvent
  | [], cum => (cum, [])
  | timing :: ts, cum =>
      let c := (cum.lookup timing.driverId).getD 0 + timing.timeInMs
      let r := lapCompleteLap ts (setAssoc timing.driverId c cum)
      (r.1,
        ⟨.lapComplete, timing.lap, c, timing.driverId,
          { position := some timing.position,
            lapTime := some timing.timeInMs }⟩ :: r.2)

/-- Outer loop of `createLapCompleteEvents`. -/
def lapCompleteGo : List LapTiming → List (String × ℚ) → List RaceEvent
  | [], _ => []
  | lt :: rest, cum =>
      let r := lapCompleteLap lt.timings cum
      r.2 ++ lapCompleteGo rest r.1

/-- `createLapCompleteEvents`: one `lap_complete` event per timing entry,
timestamped at the driver's cumulative time, sorted by time. -/
def createLapCompleteEvents (lapTimings : List LapTiming) : List RaceEvent :=
  sortByTime (lapCompleteGo lapTimings [])

/-- `createPitStopEvents`: for each pit stop whose driver and lap are found
in the processed data, a `pitstop` event at 90% of the pitted lap. -/
def createPitStopEvents (pitStops : List PitStop)
    (processedLapData : List ProcessedLapData) : List RaceEvent :=
  sortByTime (pitStops.filterMap (fun pitStop =>
    match processedLapData.find? (fun d => d.driverId == pitStop.driverId) with
    | none => none
    | some driverData =>
        match driverData.laps.find? (fun l => l.lap == pitStop.lap) with
        | none => none
        | some lapData =>
            some ⟨.pitstop, pitStop.lap,
              lapData.cumulativeTimeInMs - lapData.timeInMs * 0.1,
              pitStop.driverId,
              { pitDuration := some pitStop.durationInMs }⟩))

/-- First-entry pass of `detectOvertakes`: record initial positions and
set (not accumulate) the cumulative times. -/
def overtakeInit : List LapData → List (String × ℤ) → List (String × ℚ) →
    List (String × ℤ) × List (String × ℚ)
  | [], prev, cum => (prev, cum)
  | timing :: ts, prev, cum =>
      overtakeInit ts (setAssoc timing.driverId timing.position prev)
        (setAssoc timing.driverId timing.timeInMs cum)

/-- Per-timing scan of `detectOvertakes` within one lap entry: accumulate
the cumulative time, emit an overtake when the position improved over the
stored previous position (the overtaken driver being the first stored
entry holding the new position), then store the current position. -/
def overtakeScanLap : List LapData → List (String × ℤ) → List (String × ℚ) →
    List (String × ℤ) × List (String × ℚ) × List RaceEvent
  | [], prev, cum => (prev, cum, [])
  | timing :: ts, prev, cum =>
      let c := (cum.lookup timing.driverId).getD 0 + timing.timeInMs
      let cum2 := setAssoc timing.driverId c cum
      let ev : List RaceEvent :=
        match prev.lookup timing.driverId with
        | some prevPosition =>
            if timing.position < prevPosition then
              [⟨.overtake, timing.lap, c - timing.timeInMs * 0.5, timing.driverId,
                { position := some timing.position,
                  previousPosition := some prevPosition,
                  overtakenDriverId :=
                    (prev.find? (fun e => e.2 == timing.position)).map (fun e => e.1) }⟩]
            else []
        | none => []
      let r := overtakeScanLap ts (setAssoc timing.driverId timing.position prev) cum2
      (r.1, r.2.1, ev ++ r.2.2)

/-- Loop of `detectOvertakes` over the lap entries after the first. -/
def overtakeGo : List LapTiming → List (String × ℤ) → List (String × ℚ) →
    List RaceEvent
  | [], _, _ => []
  | lt :: rest, prev, cum =>
      let r := overtakeScanLap lt.timings prev cum
      r.2.2 ++ overtakeGo rest r.1 r.2.1

/-- `detectOvertakes`: the first lap entry only initializes state; later
entries emit overtakes at the lap midpoint, and the result is sorted. -/
def detectOvertakes (lapTimings : List LapTiming) : List RaceEvent :=
  match lapTimings with
  | [] => []
  | first :: rest =>
      let init := overtakeInit first.timings [] []
      sortByTime (overtakeGo rest init.1 init.2)

/-- `createDNFEvents`: one `dnf` event per retired driver with at least one
recorded lap, timestamped at the last recorded lap's cumulative time.
The `dnfs` map is modelled as an insertion-ordered association list of
`(driverId, (lap, reason))`. -/
def createDNFEvents (dnfs : List (String × ℤ × String))
    (processedLapData : List ProcessedLapData) : List RaceEvent :=
  sortByTime (dnfs.filterMap (fun d =>
    match processedLapData.find? (fun p => p.driverId == d.1) with
    | none => none
    | some driverData =>
        match driverData.laps.getLast? with
        | none => none
        | some lastLap =>
            some ⟨.dnf, d.2.1, lastLap.cumulativeTimeInMs, d.1,
              { dnfReason := some d.2.2 }⟩))

/-- `createFastestLapEvent`: the fastest-lap record as an event at the
cumulative time of that lap, when the driver and lap are found. -/
def createFastestLapEvent (fastestLap : Option (String × ℤ × ℚ))
    (processedLapData : List ProcessedLapData) : Option RaceEvent :=
  match fastestLap with
  | none => none
  | some fl =>
      match processedLapData.find? (fun d => d.driverId == fl.1) with
      | none => none
      | some driverData =>
          match driverData.laps.find? (fun l => l.lap == fl.2.1) with
          | none => none
          | some lapData =>
              some ⟨.fastestLap, fl.2.1, lapData.cumulativeTimeInMs, fl.1,
                { lapTime := some fl.2.2 }⟩

/-- `buildEventTimeline`: concatenate the five event families in their
fixed order and stably sort the union by time. -/
def buildEventTimeline (lapTimings : List LapTiming) (pitStops : List PitStop)
    (processedLapData : List ProcessedLapData)
    (dnfs : List (String × ℤ × String))
    (fastestLap : Option (String × ℤ × ℚ)) : List RaceEvent :=
  sortByTime
    (createLapCompleteEvents lapTimings ++
      createPitStopEvents pitStops processedLapData ++
      detectOvertakes lapTimings ++
      createDNFEvents dnfs processedLapData ++
      (createFastestLapEvent fastestLap processedLapData).toList)

/-- One driver's state inside an animation frame. -/
structure DriverState where
  driverId : String
  position : ℤ
  progress : ℚ
  lap : ℤ
  isInPit : Bool
  isDNF : Bool
  hasFastestLap : Bool
  gapToLeader : ℚ
  lastLapTime : ℚ
deriving DecidableEq

/-- One animation frame. -/
structure AnimationFrame where
  timeInMs : ℚ
  drivers : List DriverState
  events : List RaceEvent
deriving DecidableEq

/-- A complete race timeline.  Of the metadata only `totalLaps` is ever
read by the generator, and of the roster only the driver ids, so the
model carries just those. -/
structure RaceTimeline where
  totalLaps : ℤ
  drivers : List String
  totalDurationMs : ℚ
  frames : List AnimationFrame
  events : List RaceEvent
deriving DecidableEq

/-- The default frame interval of the timeline generator (ms). -/
def DEFAULT_FRAME_INTERVAL : ℚ := 500

/-- Loop of `calculateLeaderTimes`: accumulate, lap entry by lap entry,
the lap time of the timing holding position 1 (if any), and record the
running sum under the entry's lap number. -/
def leaderTimesGo : List LapTiming → ℚ → List (ℤ × ℚ) → List (ℤ × ℚ)
  | [], _, m => m
  | lt :: rest, cum, m =>
      match lt.timings.find? (fun t => t.position == 1) with
      | some leaderTiming =>
          leaderTimesGo rest (cum + leaderTiming.timeInMs)
            (setAssoc lt.lap (cum + leaderTiming.timeInMs) m)
      | none => leaderTimesGo rest cum m

/-- `calculateLeaderTimes` from the timeline generator. -/
def calculateLeaderTimes (lapTimings : List LapTiming) : List (ℤ × ℚ) :=
  leaderTimesGo lapTimings 0 []

/-- Loop of `createPitStopMap`: per driver, the set of pitted laps (the
`Set` is modelled as a duplicate-free list in insertion order). -/
def pitStopMapGo : List PitStop → List (String × List ℤ) → List (String × List ℤ)
  | [], m => m
  | ps :: rest, m =>
      let cur := (m.lookup ps.driverId).getD []
      pitStopMapGo rest
        (setAssoc ps.driverId (if ps.lap ∈ cur then cur else cur ++ [ps.lap]) m)

/-- `createPitStopMap` from the timeline generator. -/
def createPitStopMap (pitStops : List PitStop) : List (String × List ℤ) :=
  pitStopMapGo pitStops []

/-- The per-driver body of `generateFrame`'s `drivers.map(...)`: locate the
driver at `timeMs`, then derive pit, retirement, fastest-lap, gap and
last-lap fields.  (In the `leaderTime` and `driverTime` fallbacks the
JavaScript `|| 0` agrees with `getD 0` on every number except `NaN`,
which is outside the modelled domain.) -/
def driverStateAt (timeMs : ℚ) (processedLapData : List ProcessedLapData)
    (pitStopMap : List (String × List ℤ)) (dnfs : List (String × ℤ × String))
    (fastestLapDriverId : Option String) (leaderTimes : List (ℤ × ℚ))
    (totalLaps : ℤ) (driverId : String) : DriverState :=
  match processedLapData.find? (fun d => d.driverId == driverId) with
  | none => ⟨driverId, 0, 0, 0, false, false, false, 0, 0⟩
  | some driverData =>
      if driverData.laps = [] then ⟨driverId, 0, 0, 0, false, false, false, 0, 0⟩
      else
        let r := interpolatePosition driverData timeMs totalLaps
        let driverPitLaps := (pitStopMap.lookup driverId).getD []
        let isInPit : Bool :=
          if r.lap ∈ driverPitLaps ∧ 85 < r.progress ∧ r.progress < 100 then true
          else false
        let isDNF : Bool :=
          match dnfs.lookup driverId with
          | some dnfInfo => if dnfInfo.1 ≤ r.lap then true else false
          | none => false
        let hasFastestLap : Bool :=
          match fastestLapDriverId with
          | some fid => driverId == fid
          | none => false
        let leaderTime := (leaderTimes.lookup r.lap).getD 0
        let lapData := driverData.laps.find? (fun l => l.lap == r.lap)
        let driverTime := (lapData.map (fun l => l.cumulativeTimeInMs)).getD 0
        let gapToLeader := if r.position = 1 then 0 else max 0 (driverTime - leaderTime)
        let lastLapTime := (lapData.map (fun l => l.timeInMs)).getD 0
        ⟨driverId, r.position, r.progress, r.lap, isInPit, isDNF, hasFastestLap,
          gapToLeader, lastLapTime⟩

/-- The frame comparator `(a, b) => a.position - b.position` with
position-0 states pushed to the end, as a boolean "a stays before b".
(For two position-0 states the JavaScript comparator is inconsistent and
the engine's order is unspecified; no theorem below depends on it.) -/
def statePosLe (a b : DriverState) : Bool :=
  if a.position = 0 then false
  else if b.position = 0 then true
  else if a.position ≤ b.position then true
  else false

/-- Stable insertion for the frame's position sort. -/
def insertState (x : DriverState) : List DriverState → List DriverState
  | [] => [x]
  | y :: ys => if statePosLe x y then x :: y :: ys else y :: insertState x ys

/-- Stable sort of driver states by the frame comparator. -/
def sortStates (l : List DriverState) : List DriverState :=
  l.foldr insertState []

/-- `generateFrame` from the timeline generator.  Events are attached when
their time is strictly within `DEFAULT_FRAME_INTERVAL / 2` of the frame
time — the hard-coded constant, not the actual sampling interval. -/
def generateFrame (timeMs : ℚ) (drivers : List String)
    (processedLapData : List ProcessedLapData)
    (pitStopMap : List (String × List ℤ)) (events : List RaceEvent)
    (dnfs : List (String × ℤ × String)) (fastestLapDriverId : Option String)
    (leaderTimes : List (ℤ × ℚ)) (totalLaps : ℤ) : AnimationFrame :=
  ⟨timeMs,
    sortStates (drivers.map (driverStateAt timeMs processedLapData pitStopMap
      dnfs fastestLapDriverId leaderTimes totalLaps)),
    events.filter (fun e =>
      if |e.timeInMs - timeMs| < DEFAULT_FRAME_INTERVAL / 2 then true else false)⟩

/-- The number of iterations of the sampling loop
`for (t = 0; t <= total; t += interval)`: for a positive interval and a
non-negative total this is `⌊total / interval⌋ + 1`. -/
def frameCount (totalDurationMs frameInterval : ℚ) : ℕ :=
  (Int.floor (totalDurationMs / frameInterval)).toNat + 1

/-- `generateRaceTimeline` from the timeline generator: frames at
`0, interval, 2·interval, …` up to and including the total duration.
(The JavaScript loop does not terminate for `interval ≤ 0`; the model is
used with positive intervals, as every caller does.) -/
def generateRaceTimeline (totalLaps : ℤ) (drivers : List String)
    (lapTimings : List LapTiming) (processedLapData : List ProcessedLapData)
    (pitStops : List PitStop) (events : List RaceEvent)
    (dnfs : List (String × ℤ × String)) (fastestLapDriverId : Option String)
    (frameInterval : ℚ) : RaceTimeline :=
  let totalDurationMs := calculateRaceDuration lapTimings
  let leaderTimes := calculateLeaderTimes lapTimings
  let pitStopMap := createPitStopMap pitStops
  let frames := (List.range (frameCount totalDurationMs frameInterval)).map
    (fun i => generateFrame ((i : ℚ) * frameInterval) drivers processedLapData
      pitStopMap events dnfs fastestLapDriverId leaderTimes totalLaps)
  ⟨totalLaps, drivers, totalDurationMs, frames, events⟩

/-- The playback state of the `useAnimation` hook. -/
structure PlaybackState where
  isPlaying : Bool
  currentTimeMs : ℚ
  speed : ℚ
  currentFrameIndex : ℤ
deriving DecidableEq

/-- The initial playback state: paused, clock 0, speed 1, frame 0. -/
def initialPlaybackState : PlaybackState := ⟨false, 0, 1, 0⟩

/-- `findFrameIndex` from `useAnimation`: 0 without a timeline or frames;
otherwise one less than the first frame index whose time exceeds the
target (at least 0), or the last index when no frame time exceeds it. -/
def findFrameIndex (timeline : Option RaceTimeline) (timeMs : ℚ) : ℤ :=
  match timeline with
  | none => 0
  | some tl =>
      if tl.frames = [] then 0
      else
        match tl.frames.findIdx? (fun f => if timeMs < f.timeInMs then true else false) with
        | some i => max 0 ((i : ℤ) - 1)
        | none => (tl.frames.length : ℤ) - 1

/-- `play` from `useAnimation`. -/
def play (s : PlaybackState) : PlaybackState := { s with isPlaying := true }

/-- `pause` from `useAnimation`. -/
def pause (s : PlaybackState) : PlaybackState := { s with isPlaying := false }

/-- `restart` from `useAnimation`: back to clock 0, paused, keeping speed. -/
def restart (s : PlaybackState) : PlaybackState := ⟨false, 0, s.speed, 0⟩

/-- `setSpeed` from `useAnimation`. -/
def setSpeed (speed : ℚ) (s : PlaybackState) : PlaybackState :=
  { s with speed := speed }

/-- `seekTo` from `useAnimation`: a no-op without a timeline; otherwise
clamp the target into `[0, totalDurationMs]` and update the frame index. -/
def seekTo (timeline : Option RaceTimeline) (timeMs : ℚ)
    (s : PlaybackState) : PlaybackState :=
  match timeline with
  | none => s
  | some tl =>
      let clampedTime := max 0 (min timeMs tl.totalDurationMs)
      { s with
        currentTimeMs := clampedTime,
        currentFrameIndex := findFrameIndex timeline clampedTime }

/-- `seekToPercent` from `useAnimation`. -/
def seekToPercent (timeline : Option RaceTimeline) (percent : ℚ)
    (s : PlaybackState) : PlaybackState :=
  match timeline with
  | none => s
  | some tl => seekTo timeline (percent / 100 * tl.totalDurationMs) s

/-- One tick of the `animate` callback's state update with measured
wall-clock delta `deltaMs`: advance the virtual clock by
`deltaMs * speed * 20`, clamping to the total duration and pausing when
the end is reached. -/
def animateStep (timeline : Option RaceTimeline) (deltaMs : ℚ)
    (s : PlaybackState) : PlaybackState :=
  match timeline with
  | none => s
  | some tl =>
      let newTimeMs := s.currentTimeMs + deltaMs * s.speed * 20
      if tl.totalDurationMs ≤ newTimeMs then
        ⟨false, tl.totalDurationMs, s.speed, (tl.frames.length : ℤ) - 1⟩
      else
        { s with
          currentTimeMs := newTimeMs,
          currentFrameIndex := findFrameIndex timeline newTimeMs }

/-- The playback operations exposed by `useAnimation`. -/
inductive PlaybackOp where
  | play : PlaybackOp
  | pause : PlaybackOp
  | restart : PlaybackOp
  | setSpeed : ℚ → PlaybackOp
  | seekTo : ℚ → PlaybackOp
  | seekToPercent : ℚ → PlaybackOp

/-- Interpretation of one playback operation on the state. -/
def applyOp (timeline : Option RaceTimeline) (s : PlaybackState) :
    PlaybackOp → PlaybackState
  | .play => play s
  | .pause => pause s
  | .restart => restart s
  | .setSpeed v => setSpeed v s
  | .seekTo t => seekTo timeline t s
  | .seekToPercent p => seekToPercent timeline p s

/-- A sequence of playback operations, applied left to right. -/
def applyOps (timeline : Option RaceTimeline) (s : PlaybackState)
    (ops : List PlaybackOp) : PlaybackState :=
  ops.foldl (applyOp timeline) s

/-- **C1** (counterexample): the parser accepts the out-of-shape string
`"-5"` and returns the negative value −5000 ms, refuting both "fails with
a FormatError on any other shape" and "never returns a negative value";
no error path exists in `lapTimeToMs` at all. -/
theorem C1_parseTime_counterexample :
    lapTimeToMs "-5" = .num (-5000) ∧ (-5000 : ℚ) < 0 := by
  constructor
  · simp +decide [lapTimeToMs, splitOnColon, jsParseFloatChars,
      scanFloat, floatValue, readSign, parseExp, parseExpTail, digitsToNat,
      isJsWhitespace, pow10, jsAdd, jsMul]
    norm_num
  · norm_num

/-- **C1** (amended): `parseTime` returns 83456 on `"1:23.456"` and 23456
on `"23.456"`; it never raises an error: `"bad"` yields `NaN`, the empty
string yields 0, and strings of other shapes can be accepted — `"-5"`
yields −5000 (a negative value) and `"1:2:3"` yields 1000. -/
theorem C1_parseTime_amended :
    lapTimeToMs "1:23.456" = .num 83456 ∧
    lapTimeToMs "23.456" = .num 23456 ∧
    lapTimeToMs "bad" = .nan ∧
    lapTimeToMs "" = .num 0 ∧
    lapTimeToMs "1:2:3" = .num 1000 := by
  refine ⟨?_, ?_, ?_, ?_, ?_⟩ <;>
  · simp +decide [lapTimeToMs, splitOnColon, jsParseIntChars, jsParseFloatChars,
      scanFloat, floatValue, readSign, parseExp, parseExpTail, digitsToNat,
      isJsWhitespace, pow10, jsAdd, jsMul]
    try norm_num

/-- **C10**: in every playback state, with or without a timeline,
`setSpeed` changes only the `speed` field; `isPlaying`, the virtual clock
and the frame index are untouched. -/
theorem C10_setSpeed_only_speed :
    ∀ (timeline : Option RaceTimeline) (v : ℚ) (s : PlaybackState),
      applyOp timeline s (.setSpeed v) = { s with speed := v } := by
  intro timeline v s
  rfl

/-- **C4** (counterexample): with no timeline loaded, `setSpeed 2` is not
a no-op — it changes the playback state's speed from the default 1 to 2. -/
theorem C4_noTimeline_counterexample :
    applyOps none initialPlaybackState [.setSpeed 2] ≠ initialPlaybackState := by
  simp [applyOps, applyOp, setSpeed, initialPlaybackState]

/-- Without a timeline, every playback operation preserves a zero virtual
clock and a zero frame index. -/
theorem applyOp_none_preserves (s : PlaybackState) (op : PlaybackOp)
    (h : s.currentTimeMs = 0 ∧ s.currentFrameIndex = 0) :
    (applyOp none s op).currentTimeMs = 0 ∧
      (applyOp none s op).currentFrameIndex = 0 := by
  cases op <;>
    simp_all [applyOp, play, pause, restart, setSpeed, seekTo, seekToPercent]

/-- **C4** (amended): when no timeline is loaded, only the seek operations
are exact no-ops; `play`, `pause`, `restart` and `setSpeed` are not
guarded and do update `isPlaying`/`speed` (counterexample).  What does
hold for every operation sequence is that the virtual clock and the frame
index stay 0: the animation loop exits before advancing the clock. -/
theorem C4_noTimeline_amended :
    (∀ (t : ℚ) (s : PlaybackState), seekTo none t s = s) ∧
    (∀ (p : ℚ) (s : PlaybackState), seekToPercent none p s = s) ∧
    (∀ (d : ℚ) (s : PlaybackState), animateStep none d s = s) ∧
    ∀ (ops : List PlaybackOp),
      (applyOps none initialPlaybackState ops).currentTimeMs = 0 ∧
        (applyOps none initialPlaybackState ops).currentFrameIndex = 0 := by
  refine ⟨fun t s => rfl, fun p s => rfl, fun d s => rfl, ?_⟩
  have main : ∀ (ops : List PlaybackOp) (s : PlaybackState),
      s.currentTimeMs = 0 ∧ s.currentFrameIndex = 0 →
      (applyOps none s ops).currentTimeMs = 0 ∧
        (applyOps none s ops).currentFrameIndex = 0 := by
    intro ops
    induction ops with
    | nil => intro s h; exact h
    | cons op rest ih =>
        intro s h
        exact ih (applyOp none s op) (applyOp_none_preserves s op h)
  intro ops
  exact main ops initialPlaybackState ⟨rfl, rfl⟩

/-- Every lap produced by `driverLapsGo` carries a speed factor of the
clamped form, hence within `[0.5, 1.5]`. -/
theorem driverLapsGo_speedFactor_bounds :
    ∀ (avg : ℚ) (driverId : String) (l : List LapTiming) (cum : ℚ),
      ∀ e ∈ driverLapsGo avg driverId l cum,
        (0.5 : ℚ) ≤ e.speedFactor ∧ e.speedFactor ≤ 1.5 := by
  intro avg driverId l
  induction l with
  | nil => intro cum e he; simp [driverLapsGo] at he
  | cons lt rest ih =>
      intro cum e he
      rw [driverLapsGo] at he
      cases hfind : lt.timings.find? (fun t => t.driverId == driverId) with
      | none =>
          rw [hfind] at he
          exact ih _ e he
      | some timing =>
          rw [hfind] at he
          rcases List.mem_cons.mp he with rfl | h
          · exact ⟨le_max_left _ _, max_le (by norm_num) (min_le_left _ _)⟩
          · exact ih _ e h

/-- **C7**: every lap of every competitor produced by the series builder
has its pace factor inside the closed interval `[0.5, 1.5]`, whatever the
input lap samples are. -/
theorem C7_paceFactor_clamped :
    ∀ (lapTimings : List LapTiming) (driverIds : List String),
      ∀ d ∈ calculateDriverLapData lapTimings driverIds,
        ∀ e ∈ d.laps, (0.5 : ℚ) ≤ e.speedFactor ∧ e.speedFactor ≤ 1.5 := by
  intro lapTimings driverIds d hd e he
  obtain ⟨id, _, rfl⟩ := List.mem_map.mp hd
  exact driverLapsGo_speedFactor_bounds _ id lapTimings 0 e he

/-- A single lap sample, used to instantiate the series theorems. -/
def oneLapInput : List LapTiming := [⟨1, [⟨"a", 1, 1, 100⟩]⟩]

/-- **C7** (witness): the pace-factor bounds at a concrete series. -/
theorem C7_witness :
    (0.5 : ℚ) ≤ (⟨1, 1, 100, 100, 100, 1⟩ : ProcessedLap).speedFactor ∧
      (⟨1, 1, 100, 100, 100, 1⟩ : ProcessedLap).speedFactor ≤ 1.5 :=
  C7_paceFactor_clamped oneLapInput ["a"] ⟨"a", [⟨1, 1, 100, 100, 100, 1⟩]⟩
    (by norm_num [oneLapInput, calculateDriverLapData, averageLapTime,
      lapTimeStats, driverLapsGo])
    ⟨1, 1, 100, 100, 100, 1⟩ (by norm_num)

/-- When every sample's lap time is positive, `driverLapsGo` produces
cumulative times that all exceed the running base and that strictly
increase along the list. -/
theorem driverLapsGo_cum_strict_mono :
    ∀ (avg : ℚ) (driverId : String) (l : List LapTiming) (cum : ℚ),
      (∀ lt ∈ l, ∀ t ∈ lt.timings, 0 < t.timeInMs) →
      (∀ e ∈ driverLapsGo avg driverId l cum, cum < e.cumulativeTimeInMs) ∧
        List.Pairwise (fun a b => a.cumulativeTimeInMs < b.cumulativeTimeInMs)
          (driverLapsGo avg driverId l cum) := by
  intro avg driverId l
  induction l with
  | nil => intro cum _; simp [driverLapsGo]
  | cons lt rest ih =>
      intro cum hpos
      have hposRest : ∀ lt2 ∈ rest, ∀ t ∈ lt2.timings, 0 < t.timeInMs :=
        fun lt2 h2 => hpos lt2 (List.mem_cons_of_mem lt h2)
      rw [driverLapsGo]
      cases hfind : lt.timings.find? (fun t => t.driverId == driverId) with
      | none => exact ih cum hposRest
      | some timing =>
          have htmem : timing ∈ lt.timings := List.mem_of_find?_eq_some hfind
          have ht : 0 < timing.timeInMs := hpos lt (List.mem_cons_self lt rest) timing htmem
          have hcum : cum < cum + timing.timeInMs := by linarith
          obtain ⟨ihbound, ihpair⟩ := ih (cum + timing.timeInMs) hposRest
          constructor
          · intro e he
            rcases List.mem_cons.mp he with rfl | h
            · exact hcum
            · exact lt_trans hcum (ihbound e h)
          · exact List.pairwise_cons.mpr ⟨fun e he => ihbound e he, ihpair⟩

/-- **C6** (amended): provided every lap sample's time is positive, every
competitor's cumulative times strictly increase lap over lap.  (With a
zero or negative sample the code produces a non-increasing step —
counterexample.) -/
theorem C6_cumulative_strictly_increasing :
    ∀ (lapTimings : List LapTiming) (driverIds : List String),
      (∀ lt ∈ lapTimings, ∀ t ∈ lt.timings, 0 < t.timeInMs) →
      ∀ d ∈ calculateDriverLapData lapTimings driverIds,
        List.Pairwise (fun a b => a.cumulativeTimeInMs < b.cumulativeTimeInMs)
          d.laps := by
  intro lapTimings driverIds hpos d hd
  obtain ⟨id, _, rfl⟩ := List.mem_map.mp hd
  exact (driverLapsGo_cum_strict_mono _ id lapTimings 0 hpos).2

/-- **C6** (counterexample): a lap sample with `timeInMs = 0` produces two
equal consecutive cumulative times (100, 100) — not strictly increasing. -/
theorem C6_counterexample :
    (calculateDriverLapData [⟨1, [⟨"a", 1, 1, 100⟩]⟩, ⟨2, [⟨"a", 2, 1, 0⟩]⟩]
        ["a"]).map (fun d => d.laps.map (fun e => e.cumulativeTimeInMs)) =
      [[100, 100]] := by
  norm_num [calculateDriverLapData, averageLapTime, lapTimeStats, driverLapsGo]

/-- **C6** (witness): the strict-monotonicity theorem at a concrete
positive-time input. -/
theorem C6_witness :
    List.Pairwise (fun a b => a.cumulativeTimeInMs < b.cumulativeTimeInMs)
      ([⟨1, 1, 100, 100, 100, 1⟩] : List ProcessedLap) :=
  C6_cumulative_strictly_increasing oneLapInput ["a"]
    (by norm_num [oneLapInput]) ⟨"a", [⟨1, 1, 100, 100, 100, 1⟩]⟩
    (by norm_num [oneLapInput, calculateDriverLapData, averageLapTime,
      lapTimeStats, driverLapsGo])

/-- Inserting into a time-sorted list is a permutation of consing. -/
theorem insertByTime_perm :
    ∀ (x : RaceEvent) (l : List RaceEvent), List.Perm (insertByTime x l) (x :: l) := by
  intro x l
  induction l with
  | nil => exact List.Perm.refl _
  | cons y ys ih =>
      rw [insertByTime]
      split
      · exact List.Perm.refl _
      · exact (List.Perm.cons y ih).trans (List.Perm.swap x y ys)

/-- The stable time sort permutes its input. -/
theorem sortByTime_perm : ∀ (l : List RaceEvent), List.Perm (sortByTime l) l := by
  intro l
  induction l with
  | nil => exact List.Perm.refl _
  | cons x xs ih =>
      exact (insertByTime_perm x (sortByTime xs)).trans (List.Perm.cons x ih)

/-- Membership is preserved by the stable time sort. -/
theorem mem_sortByTime {e : RaceEvent} {l : List RaceEvent} :
    e ∈ sortByTime l ↔ e ∈ l :=
  (sortByTime_perm l).mem_iff

/-- Every event emitted by the per-lap overtake scan is an overtake whose
lap number is one of the scanned timings' lap numbers. -/
theorem overtakeScanLap_shape :
    ∀ (ts : List LapData) (prev : List (String × ℤ)) (cum : List (String × ℚ)),
      ∀ e ∈ (overtakeScanLap ts prev cum).2.2,
        e.type = .overtake ∧ ∃ t ∈ ts, e.lap = t.lap := by
  intro ts
  induction ts with
  | nil => intro prev cum e he; simp [overtakeScanLap] at he
  | cons timing rest ih =>
      intro prev cum e he
      rw [overtakeScanLap] at he
      simp only at he
      rcases List.mem_append.mp he with hev | h
      · split at hev
        · split at hev
          · rcases List.mem_singleton.mp hev with rfl
            exact ⟨rfl, timing, List.mem_cons_self _ _, rfl⟩
          · simp at hev
        · simp at hev
      · obtain ⟨hty, t, htmem, hlap⟩ := ih _ _ e h
        exact ⟨hty, t, List.mem_cons_of_mem _ htmem, hlap⟩

/-- Every event emitted by the overtake loop is an overtake whose lap
number occurs among the remaining entries' timings. -/
theorem overtakeGo_shape :
    ∀ (l : List LapTiming) (prev : List (String × ℤ)) (cum : List (String × ℚ)),
      ∀ e ∈ overtakeGo l prev cum,
        e.type = .overtake ∧ ∃ lt ∈ l, ∃ t ∈ lt.timings, e.lap = t.lap := by
  intro l
  induction l with
  | nil => intro prev cum e he; simp [overtakeGo] at he
  | cons lt rest ih =>
      intro prev cum e he
      rw [overtakeGo] at he
      rcases List.mem_append.mp he with hl | hr
      · obtain ⟨hty, t, htmem, hlap⟩ := overtakeScanLap_shape lt.timings prev cum e hl
        exact ⟨hty, lt, List.mem_cons_self _ _, t, htmem, hlap⟩
      · obtain ⟨hty, lt2, h2, t, htmem, hlap⟩ := ih _ _ e hr
        exact ⟨hty, lt2, List.mem_cons_of_mem _ h2, t, htmem, hlap⟩

/-- **C8** (amended): no overtake is ever emitted from the first
lap-timing entry; hence whenever every entry after the first carries lap
numbers above 1 — as with laps supplied in order 1, 2, … — every overtake
event's lap number exceeds 1.  (For inputs whose later entries reuse lap
number 1 the claim fails — counterexample.) -/
theorem C8_no_lap1_overtakes :
    ∀ (lapTimings : List LapTiming),
      (∀ lt ∈ lapTimings.drop 1, ∀ t ∈ lt.timings, 1 < t.lap) →
      ∀ e ∈ detectOvertakes lapTimings, 1 < e.lap := by
  intro lapTimings h e he
  cases lapTimings with
  | nil => simp [detectOvertakes] at he
  | cons first rest =>
      rw [detectOvertakes] at he
      obtain ⟨-, lt, hlt, t, htmem, hlap⟩ :=
        overtakeGo_shape rest _ _ e (mem_sortByTime.mp he)
      rw [hlap]
      exact h lt hlt t htmem

/-- Out-of-order input for the overtake detector: a lap-1 entry placed
after a lap-5 entry. -/
def exC8 : List LapTiming :=
  [⟨5, [⟨"b", 5, 1, 90⟩, ⟨"a", 5, 2, 100⟩]⟩, ⟨1, [⟨"a", 1, 1, 100⟩]⟩]

/-- **C8** (counterexample): on `exC8` the detector emits exactly one
overtake event and it references lap 1. -/
theorem C8_counterexample :
    (detectOvertakes exC8).map (fun e => e.lap) = [1] := by
  simp +decide [exC8, detectOvertakes, overtakeInit, overtakeGo, overtakeScanLap,
    setAssoc, sortByTime, insertByTime]

/-- In-order two-lap input in which driver "a" takes position 1 on lap 2. -/
def exC8w : List LapTiming :=
  [⟨1, [⟨"a", 1, 2, 100⟩, ⟨"b", 1, 1, 90⟩]⟩, ⟨2, [⟨"a", 2, 1, 100⟩]⟩]

/-- **C8** (witness): the amended theorem applied to the in-order input,
whose single overtake is at lap 2. -/
theorem C8_witness :
    1 < (⟨.overtake, 2, 150, "a",
      { position := some 1, previousPosition := some 2,
        overtakenDriverId := some "b" }⟩ : RaceEvent).lap :=
  C8_no_lap1_overtakes exC8w (by norm_num [exC8w]) _
    (by
      simp +decide [exC8w, detectOvertakes, overtakeInit, overtakeGo,
        overtakeScanLap, setAssoc, sortByTime, insertByTime]
      norm_num)

/-- The position of an event category in `buildEventTimeline`'s
concatenation order: lap completions, then pit stops, overtakes,
retirements, and the fastest lap. -/
def eventRank : RaceEventType → ℕ
  | .lapComplete => 0
  | .pitstop => 1
  | .overtake => 2
  | .dnf => 3
  | .fastestLap => 4

/-- The order a fully built event log satisfies: ascending time, and at
equal times the fixed category order. -/
def timeOrdered (a b : RaceEvent) : Prop :=
  a.timeInMs ≤ b.timeInMs ∧
    (a.timeInMs = b.timeInMs → eventRank a.type ≤ eventRank b.type)

/-- Inserting an event that ranks at or below everything in a
`timeOrdered`-sorted list keeps the list `timeOrdered`-sorted: the
insertion point is before the first equal-or-later time, so ties keep
the presentation order. -/
theorem insertByTime_timeOrdered (x : RaceEvent) :
    ∀ (l : List RaceEvent), l.Pairwise timeOrdered →
      (∀ z ∈ l, eventRank x.type ≤ eventRank z.type) →
      (insertByTime x l).Pairwise timeOrdered := by
  intro l
  induction l with
  | nil => intro _ _; simp [insertByTime, timeOrdered]
  | cons y ys ih =>
      intro hl hx
      obtain ⟨hy, hys⟩ := List.pairwise_cons.mp hl
      rw [insertByTime]
      split
      · rename_i hle
        refine List.pairwise_cons.mpr ⟨?_, hl⟩
        intro z hz
        rcases List.mem_cons.mp hz with rfl | hz2
        · exact ⟨hle, fun _ => hx z (List.mem_cons_self _ _)⟩
        · exact ⟨le_trans hle (hy z hz2).1, fun _ => hx z (List.mem_cons_of_mem _ hz2)⟩
      · rename_i hnle
        have hlt : y.timeInMs < x.timeInMs := lt_of_not_le hnle
        refine List.pairwise_cons.mpr ⟨?_, ih hys fun z hz => hx z (List.mem_cons_of_mem _ hz)⟩
        intro z hz
        rcases List.mem_cons.mp ((insertByTime_perm x ys).mem_iff.mp hz) with rfl | hz2
        · exact ⟨le_of_lt hlt, fun heq => absurd heq (ne_of_lt hlt)⟩
        · exact hy z hz2

/-- Stably sorting a list whose presentation order is already weakly
rank-monotone yields a `timeOrdered` list. -/
theorem sortByTime_timeOrdered :
    ∀ (l : List RaceEvent),
      l.Pairwise (fun a b => eventRank a.type ≤ eventRank b.type) →
      (sortByTime l).Pairwise timeOrdered := by
  intro l
  induction l with
  | nil => intro _; simp [sortByTime]
  | cons x xs ih =>
      intro h
      obtain ⟨hx, hxs⟩ := List.pairwise_cons.mp h
      exact insertByTime_timeOrdered x (sortByTime xs) (ih hxs)
        (fun z hz => hx z (mem_sortByTime.mp hz))

/-- A list of events all of one category is weakly rank-monotone. -/
theorem pairwise_rankLe_of_const :
    ∀ (l : List RaceEvent) (c : RaceEventType), (∀ e ∈ l, e.type = c) →
      l.Pairwise (fun a b => eventRank a.type ≤ eventRank b.type) := by
  intro l c
  induction l with
  | nil => intro _; exact List.Pairwise.nil
  | cons x xs ih =>
      intro h
      refine List.pairwise_cons.mpr ⟨fun z hz => ?_, ih fun e he => h e (List.mem_cons_of_mem _ he)⟩
      rw [h x (List.mem_cons_self _ _), h z (List.mem_cons_of_mem _ hz)]

/-- Events of the inner lap-completion loop are lap completions. -/
theorem lapCompleteLap_type :
    ∀ (ts : List LapData) (cum : List (String × ℚ)),
      ∀ e ∈ (lapCompleteLap ts cum).2, e.type = .lapComplete := by
  intro ts
  induction ts with
  | nil => intro cum e he; simp [lapCompleteLap] at he
  | cons timing rest ih =>
      intro cum e he
      rw [lapCompleteLap] at he
      rcases List.mem_cons.mp he with rfl | h
      · rfl
      · exact ih _ e h

/-- Events of the lap-completion loop are lap completions. -/
theorem lapCompleteGo_type :
    ∀ (l : List LapTiming) (cum : List (String × ℚ)),
      ∀ e ∈ lapCompleteGo l cum, e.type = .lapComplete := by
  intro l
  induction l with
  | nil => intro cum e he; simp [lapCompleteGo] at he
  | cons lt rest ih =>
      intro cum e he
      rw [lapCompleteGo] at he
      rcases List.mem_append.mp he with h | h
      · exact lapCompleteLap_type lt.timings cum e h
      · exact ih _ e h

/-- Every event of `createLapCompleteEvents` is a lap completion. -/
theorem createLapCompleteEvents_type :
    ∀ (lapTimings : List LapTiming), ∀ e ∈ createLapCompleteEvents lapTimings,
      e.type = .lapComplete := by
  intro lapTimings e he
  exact lapCompleteGo_type lapTimings [] e (mem_sortByTime.mp he)

/-- Every event of `createPitStopEvents` is a pit stop. -/
theorem createPitStopEvents_type :
    ∀ (pitStops : List PitStop) (pd : List ProcessedLapData),
      ∀ e ∈ createPitStopEvents pitStops pd, e.type = .pitstop := by
  intro pitStops pd e he
  rcases List.mem_filterMap.mp (mem_sortByTime.mp he) with ⟨ps, -, hf⟩
  split at hf
  · simp at hf
  · split at hf
    · simp at hf
    · rcases Option.some.inj hf with rfl
      rfl

/-- Every event of `detectOvertakes` is an overtake. -/
theorem detectOvertakes_type :
    ∀ (lapTimings : List LapTiming), ∀ e ∈ detectOvertakes lapTimings,
      e.type = .overtake := by
  intro lapTimings e he
  cases lapTimings with
  | nil => simp [detectOvertakes] at he
  | cons first rest =>
      rw [detectOvertakes] at he
      exact (overtakeGo_shape rest _ _ e (mem_sortByTime.mp he)).1

/-- Every event of `createDNFEvents` is a retirement. -/
theorem createDNFEvents_type :
    ∀ (dnfs : List (String × ℤ × String)) (pd : List ProcessedLapData),
      ∀ e ∈ createDNFEvents dnfs pd, e.type = .dnf := by
  intro dnfs pd e he
  rcases List.mem_filterMap.mp (mem_sortByTime.mp he) with ⟨d, -, hf⟩
  split at hf
  · simp at hf
  · split at hf
    · simp at hf
    · rcases Option.some.inj hf with rfl
      rfl

/-- The fastest-lap event, when present, is a fastest lap. -/
theorem createFastestLapEvent_type :
    ∀ (fl : Option (String × ℤ × ℚ)) (pd : List ProcessedLapData)
      (e : RaceEvent), createFastestLapEvent fl pd = some e →
      e.type = .fastestLap := by
  intro fl pd e hf
  rw [createFastestLapEvent.eq_def] at hf
  split at hf
  · simp at hf
  · split at hf
    · simp at hf
    · split at hf
      · simp at hf
      · rcases Option.some.inj hf with rfl
        rfl

/-- **C5**: a fully built event log is sorted ascending by time, and
among equal-time neighbours the category order is the fixed one
(lap completions, pit stops, overtakes, retirements, fastest lap) —
`timeOrdered` holds between every pair of consecutive events, for every
input. -/
theorem C5_event_log_sorted :
    ∀ (lapTimings : List LapTiming) (pitStops : List PitStop)
      (processedLapData : List ProcessedLapData)
      (dnfs : List (String × ℤ × String))
      (fastestLap : Option (String × ℤ × ℚ)),
      List.Chain' timeOrdered
        (buildEventTimeline lapTimings pitStops processedLapData dnfs fastestLap) := by
  intro lapTimings pitStops processedLapData dnfs fastestLap
  refine List.Pairwise.chain' ?_
  rw [buildEventTimeline]
  refine sortByTime_timeOrdered _ ?_
  have hA := createLapCompleteEvents_type lapTimings
  have hB := createPitStopEvents_type pitStops processedLapData
  have hC := detectOvertakes_type lapTimings
  have hD := createDNFEvents_type dnfs processedLapData
  have hE : ∀ e ∈ (createFastestLapEvent fastestLap processedLapData).toList,
      e.type = .fastestLap := by
    intro e he
    rcases Option.mem_toList.mp he with hmem
    exact createFastestLapEvent_type fastestLap processedLapData e hmem
  refine List.pairwise_append.mpr ⟨?_, pairwise_rankLe_of_const _ _ hE, ?_⟩
  · refine List.pairwise_append.mpr ⟨?_, pairwise_rankLe_of_const _ _ hD, ?_⟩
    · refine List.pairwise_append.mpr ⟨?_, pairwise_rankLe_of_const _ _ hC, ?_⟩
      · refine List.pairwise_append.mpr
          ⟨pairwise_rankLe_of_const _ _ hA, pairwise_rankLe_of_const _ _ hB, ?_⟩
        intro a ha b hb
        rw [hA a ha, hB b hb]
        decide
      · intro a ha b hb
        rw [hC b hb]
        rcases List.mem_append.mp ha with h | h
        · rw [hA a h]; decide
        · rw [hB a h]; decide
    · intro a ha b hb
      rw [hD b hb]
      rcases List.mem_append.mp ha with h | h
      · rcases List.mem_append.mp h with h2 | h2
        · rw [hA a h2]; decide
        · rw [hB a h2]; decide
      · rw [hC a h]; decide
  · intro a ha b hb
    rw [hE b hb]
    rcases List.mem_append.mp ha with h | h
    · rcases List.mem_append.mp h with h2 | h2
      · rcases List.mem_append.mp h2 with h3 | h3
        · rw [hA a h3]; decide
        · rw [hB a h3]; decide
      · rw [hC a h2]; decide
    · rw [hD a h]; decide

/-- **C2** (amended): in every generated timeline, an event of the log is
attached to exactly those frames whose time lies strictly within
`DEFAULT_FRAME_INTERVAL / 2 = 250` ms of the event's time — regardless of
the actual sampling interval.  Hence with non-default intervals an event
can land in zero or several frames, and even at the default interval an
event exactly 250 ms from the nearest frame is attached nowhere
(counterexample shows duplication at interval 100). -/
theorem C2_event_attachment :
    ∀ (totalLaps : ℤ) (drivers : List String) (lapTimings : List LapTiming)
      (processedLapData : List ProcessedLapData) (pitStops : List PitStop)
      (events : List RaceEvent) (dnfs : List (String × ℤ × String))
      (fastestLapDriverId : Option String) (frameInterval : ℚ),
      ∀ f ∈ (generateRaceTimeline totalLaps drivers lapTimings processedLapData
          pitStops events dnfs fastestLapDriverId frameInterval).frames,
        ∀ e ∈ (generateRaceTimeline totalLaps drivers lapTimings processedLapData
            pitStops events dnfs fastestLapDriverId frameInterval).events,
          (e ∈ f.events ↔ |e.timeInMs - f.timeInMs| < DEFAULT_FRAME_INTERVAL / 2) := by
  intro totalLaps drivers lapTimings processedLapData pitStops events dnfs
    fastestLapDriverId frameInterval f hf e he
  simp only [generateRaceTimeline] at hf he
  obtain ⟨i, -, rfl⟩ := List.mem_map.mp hf
  simp only [generateFrame]
  constructor
  · intro hmem
    have hp := (List.mem_filter.mp hmem).2
    by_contra hcond
    rw [if_neg hcond] at hp
    simp at hp
  · intro hcond
    exact List.mem_filter.mpr ⟨he, by rw [if_pos hcond]⟩

/-- Input for the attachment counterexample: one driver, one 150 ms lap. -/
def exC2 : List LapTiming := [⟨1, [⟨"a", 1, 1, 150⟩]⟩]

/-- Its processed series. -/
def exC2pd : List ProcessedLapData := calculateDriverLapData exC2 ["a"]

/-- Its event log: a single lap completion at 150 ms. -/
def exC2events : List RaceEvent := buildEventTimeline exC2 [] exC2pd [] none

/-- The timeline generated from it at a sampling interval of 100 ms. -/
def exC2tl : RaceTimeline :=
  generateRaceTimeline 1 ["a"] exC2 exC2pd [] exC2events [] none 100

/-- **C2** (counterexample): with sampling interval 100 the single event of
the log is attached to both generated frames — duplicated, not attached
to exactly one frame. -/
theorem C2_counterexample :
    exC2tl.events =
      [⟨.lapComplete, 1, 150, "a", { position := some 1, lapTime := some 150 }⟩] ∧
    exC2tl.frames.map (fun f => f.events) =
      [[⟨.lapComplete, 1, 150, "a", { position := some 1, lapTime := some 150 }⟩],
        [⟨.lapComplete, 1, 150, "a", { position := some 1, lapTime := some 150 }⟩]] := by
  constructor
  · simp +decide [exC2tl, exC2events, exC2pd, exC2, generateRaceTimeline,
      buildEventTimeline, createLapCompleteEvents, lapCompleteGo, lapCompleteLap,
      createPitStopEvents, detectOvertakes, createDNFEvents, createFastestLapEvent,
      calculateDriverLapData, averageLapTime, lapTimeStats, driverLapsGo,
      setAssoc, sortByTime, insertByTime]
  · simp +decide [exC2tl, exC2events, exC2pd, exC2, generateRaceTimeline,
      generateFrame, frameCount, calculateRaceDuration, raceDurationGo,
      raceDurationLap, buildEventTimeline, createLapCompleteEvents, lapCompleteGo,
      lapCompleteLap, createPitStopEvents, detectOvertakes, createDNFEvents,
      createFastestLapEvent, calculateDriverLapData, averageLapTime, lapTimeStats,
      driverLapsGo, setAssoc, sortByTime, insertByTime, DEFAULT_FRAME_INTERVAL,
      List.range_succ]
    norm_num [show List.range 1 = [0] from by decide, List.filter_cons,
      List.filter_nil, decide_eq_true_eq]

/-- **C2** (witness): the attachment criterion applied at the first frame
of the concrete timeline and its single event. -/
theorem C2_witness :
    ((⟨.lapComplete, 1, 150, "a",
        { position := some 1, lapTime := some 150 }⟩ : RaceEvent) ∈
      (⟨0, [⟨"a", 1, 0, 1, false, false, false, 0, 150⟩],
        [⟨.lapComplete, 1, 150, "a",
          { position := some 1, lapTime := some 150 }⟩]⟩ : AnimationFrame).events) ↔
      |(150 : ℚ) - 0| < DEFAULT_FRAME_INTERVAL / 2 := by
  have h := C2_event_attachment 1 ["a"] exC2 exC2pd [] exC2events [] none 100
    ⟨0, [⟨"a", 1, 0, 1, false, false, false, 0, 150⟩],
      [⟨.lapComplete, 1, 150, "a", { position := some 1, lapTime := some 150 }⟩]⟩
    (by
      simp +decide [exC2tl, exC2events, exC2pd, exC2, generateRaceTimeline,
        generateFrame, frameCount, calculateRaceDuration, raceDurationGo,
        raceDurationLap, buildEventTimeline, createLapCompleteEvents, lapCompleteGo,
        lapCompleteLap, createPitStopEvents, detectOvertakes, createDNFEvents,
        createFastestLapEvent, calculateDriverLapData, averageLapTime, lapTimeStats,
        driverLapsGo, setAssoc, sortByTime, insertByTime, DEFAULT_FRAME_INTERVAL,
        List.range_succ, sortStates, insertState, statePosLe, driverStateAt,
        interpolatePosition, interpGo, createPitStopMap, pitStopMapGo,
        calculateLeaderTimes, leaderTimesGo]
      norm_num)
    ⟨.lapComplete, 1, 150, "a", { position := some 1, lapTime := some 150 }⟩
    (by
      simp +decide [exC2events, exC2pd, exC2, generateRaceTimeline,
        buildEventTimeline, createLapCompleteEvents, lapCompleteGo, lapCompleteLap,
        createPitStopEvents, detectOvertakes, createDNFEvents, createFastestLapEvent,
        calculateDriverLapData, averageLapTime, lapTimeStats, driverLapsGo,
        setAssoc, sortByTime, insertByTime])
  exact h

/-- The claim's reading of "competitor cumulative at a lap number": the
`cumulativeTimeInMs` recorded for the competitor at that lap in the
processed series, 0 when absent — the very lookup `generateFrame`
performs for the competitor itself. -/
def seriesCumAt (processedLapData : List ProcessedLapData) (driverId : String)
    (lap : ℤ) : ℚ :=
  match processedLapData.find? (fun d => d.driverId == driverId) with
  | none => 0
  | some dd =>
      ((dd.laps.find? (fun l => l.lap == lap)).map
        (fun l => l.cumulativeTimeInMs)).getD 0

/-- `Map.set` then `Map.get`: the set key reads back the new value, any
other key is unaffected. -/
theorem lookup_setAssoc {κ β : Type} [DecidableEq κ] [LawfulBEq κ] :
    ∀ (k k2 : κ) (v : β) (m : List (κ × β)),
      (setAssoc k v m).lookup k2 = if k2 = k then some v else m.lookup k2 := by
  intro k k2 v m
  induction m with
  | nil =>
      by_cases h : k2 = k
      · subst h
        simp [setAssoc, List.lookup]
      · have hb : (k2 == k) = false := beq_eq_false_iff_ne.mpr h
        simp [setAssoc, List.lookup, hb, h]
  | cons p rest ih =>
      obtain ⟨pk, pv⟩ := p
      rw [setAssoc]
      split
      · rename_i hpk
        by_cases h : k2 = k
        · subst h
          simp [List.lookup]
        · have hb : (k2 == k) = false := beq_eq_false_iff_ne.mpr h
          have hb2 : (k2 == pk) = false := beq_eq_false_iff_ne.mpr (hpk ▸ h)
          simp [List.lookup, hb, hb2, h]
      · rename_i hpk
        by_cases h : k2 = pk
        · subst h
          have hne : ¬k2 = k := fun hc => hpk hc
          have hb : (k2 == k2) = true := by simp
          simp [List.lookup, hne]
        · have hb2 : (k2 == pk) = false := beq_eq_false_iff_ne.mpr h
          have hb3 : (k == pk) = false :=
            beq_eq_false_iff_ne.mpr (fun hc => hpk hc.symm)
          by_cases h2 : k2 = k
          · subst h2
            simp only [List.lookup, hb2]
            simpa using ih
          · simp [List.lookup, hb2, hb3, ih, h2]

/-- Under a sustained leader `L`, every lap produced for `L` carries the
lap number of the entry it came from. -/
theorem driverLapsGo_lap_mem :
    ∀ (avg : ℚ) (L : String) (l : List LapTiming) (cum : ℚ),
      (∀ lt ∈ l, ∃ tim,
          lt.timings.find? (fun x => x.position == 1) = some tim ∧
          lt.timings.find? (fun x => x.driverId == L) = some tim ∧
          tim.lap = lt.lap) →
      ∀ e ∈ driverLapsGo avg L l cum, e.lap ∈ l.map (fun lt => lt.lap) := by
  intro avg L l
  induction l with
  | nil => intro cum _ e he; simp [driverLapsGo] at he
  | cons lt rest ih =>
      intro cum h1 e he
      obtain ⟨tim, -, hdrv, hlap⟩ := h1 lt (List.mem_cons_self _ _)
      rw [driverLapsGo, hdrv] at he
      rcases List.mem_cons.mp he with rfl | h
      · simp [hlap]
      · have := ih _ (fun lt2 h2 => h1 lt2 (List.mem_cons_of_mem _ h2)) e h
        rw [List.map_cons]
        exact List.mem_cons_of_mem _ this

/-- The correspondence at the heart of the gap formula: with one
competitor `L` holding position 1 on every recorded lap (and lap numbers
not repeating), the leader-time accumulation of `calculateLeaderTimes`
agrees, key by key, with `L`'s own cumulative-time series. -/
theorem leaderTimesGo_lookup :
    ∀ (avg : ℚ) (L : String) (l : List LapTiming) (cum : ℚ)
      (m : List (ℤ × ℚ)) (k : ℤ),
      (∀ lt ∈ l, ∃ tim,
          lt.timings.find? (fun x => x.position == 1) = some tim ∧
          lt.timings.find? (fun x => x.driverId == L) = some tim ∧
          tim.lap = lt.lap) →
      (l.map (fun lt => lt.lap)).Nodup →
      (leaderTimesGo l cum m).lookup k =
        match (driverLapsGo avg L l cum).find? (fun e => e.lap == k) with
        | some e => some e.cumulativeTimeInMs
        | none => m.lookup k := by
  intro avg L l
  induction l with
  | nil => intro cum m k _ _; simp [leaderTimesGo, driverLapsGo]
  | cons lt rest ih =>
      intro cum m k h1 h2
      obtain ⟨tim, hpos, hdrv, hlap⟩ := h1 lt (List.mem_cons_self _ _)
      have h1rest : ∀ lt2 ∈ rest, ∃ tim2,
          lt2.timings.find? (fun x => x.position == 1) = some tim2 ∧
          lt2.timings.find? (fun x => x.driverId == L) = some tim2 ∧
          tim2.lap = lt2.lap :=
        fun lt2 hm => h1 lt2 (List.mem_cons_of_mem _ hm)
      rw [List.map_cons, List.nodup_cons] at h2
      obtain ⟨hnotin, h2rest⟩ := h2
      simp only [leaderTimesGo, hpos, driverLapsGo, hdrv]
      by_cases hk : k = lt.lap
      · have hb : ((tim.lap : ℤ) == k) = true := by simp [hlap, hk]
        simp only [List.find?_cons, hb]
        rw [ih (cum + tim.timeInMs) (setAssoc lt.lap (cum + tim.timeInMs) m) k
          h1rest h2rest]
        have hnone : (driverLapsGo avg L rest (cum + tim.timeInMs)).find?
            (fun e => e.lap == k) = none := by
          refine List.find?_eq_none.mpr fun e he => ?_
          intro hc
          have hc2 : e.lap = k := by simpa using hc
          have hm := driverLapsGo_lap_mem avg L rest (cum + tim.timeInMs) h1rest e he
          rw [hc2, hk] at hm
          exact hnotin hm
        rw [hnone]
        show (setAssoc lt.lap (cum + tim.timeInMs) m).lookup k = _
        rw [lookup_setAssoc, if_pos hk]
      · have hb : ((tim.lap : ℤ) == k) = false := by
          refine beq_eq_false_iff_ne.mpr fun hc => ?_
          exact hk (hc.symm.trans hlap)
        simp only [List.find?_cons, hb]
        rw [ih (cum + tim.timeInMs) (setAssoc lt.lap (cum + tim.timeInMs) m) k
          h1rest h2rest]
        cases hfind : (driverLapsGo avg L rest (cum + tim.timeInMs)).find?
            (fun e => e.lap == k) with
        | some e => rfl
        | none =>
            show (setAssoc lt.lap (cum + tim.timeInMs) m).lookup k = m.lookup k
            rw [lookup_setAssoc, if_neg hk]

/-- Locating a driver in the built processed data. -/
theorem calculateDriverLapData_find :
    ∀ (lapTimings : List LapTiming) (driverIds : List String) (L : String),
      L ∈ driverIds →
      (calculateDriverLapData lapTimings driverIds).find?
          (fun d => d.driverId == L) =
        some ⟨L, driverLapsGo (averageLapTime lapTimings) L lapTimings 0⟩ := by
  intro lapTimings driverIds L
  induction driverIds with
  | nil => intro h; simp at h
  | cons id rest ih =>
      intro hmem
      by_cases hid : id = L
      · subst hid
        simp only [calculateDriverLapData, List.map_cons]
        rw [List.find?_cons_of_pos _ (by simp)]
      · have hmem2 : L ∈ rest := by
          rcases List.mem_cons.mp hmem with h | h
          · exact absurd h.symm hid
          · exact h
        have hrec := ih hmem2
        simp only [calculateDriverLapData, List.map_cons] at hrec ⊢
        rw [List.find?_cons_of_neg _ (by simp [hid])]
        exact hrec

/-- **C3** (amended): in every generated driver state,
`gapToLeaderMs = 0` for the position-1 competitor, and otherwise
`max 0 (competitorCumulative − leaderReference(lap))` where the leader
reference is `calculateLeaderTimes`' per-lap accumulation of each lap's
position-1 lap time.  That reference equals "the cumulative time of
whichever competitor held position 1 at that lap" — the claim's reading —
precisely when a single competitor `L` holds position 1 on every recorded
lap, proven here under that hypothesis (with distinct, consistent lap
numbers and positive lap times); after a leader change the two differ
(counterexample). -/
theorem C3_gap_to_leader :
    ∀ (lapTimings : List LapTiming) (driverIds : List String) (L : String)
      (pitStops : List PitStop) (dnfs : List (String × ℤ × String))
      (fastestLapDriverId : Option String) (totalLaps : ℤ) (t : ℚ) (d : String),
      (∀ lt ∈ lapTimings, ∃ tim,
          lt.timings.find? (fun x => x.position == 1) = some tim ∧
          lt.timings.find? (fun x => x.driverId == L) = some tim ∧
          tim.lap = lt.lap) →
      (lapTimings.map (fun lt => lt.lap)).Nodup →
      (∀ lt ∈ lapTimings, ∀ x ∈ lt.timings, 0 < x.timeInMs) →
      L ∈ driverIds →
      (driverStateAt t (calculateDriverLapData lapTimings driverIds)
          (createPitStopMap pitStops) dnfs fastestLapDriverId
          (calculateLeaderTimes lapTimings) totalLaps d).gapToLeader =
        if (driverStateAt t (calculateDriverLapData lapTimings driverIds)
            (createPitStopMap pitStops) dnfs fastestLapDriverId
            (calculateLeaderTimes lapTimings) totalLaps d).position = 1 then 0
        else
          max 0 (seriesCumAt (calculateDriverLapData lapTimings driverIds) d
              (driverStateAt t (calculateDriverLapData lapTimings driverIds)
                (createPitStopMap pitStops) dnfs fastestLapDriverId
                (calculateLeaderTimes lapTimings) totalLaps d).lap -
            seriesCumAt (calculateDriverLapData lapTimings driverIds) L
              (driverStateAt t (calculateDriverLapData lapTimings driverIds)
                (createPitStopMap pitStops) dnfs fastestLapDriverId
                (calculateLeaderTimes lapTimings) totalLaps d).lap) := by
  intro lapTimings driverIds L pitStops dnfs fastestLapDriverId totalLaps t d
    h1 h2 h3 hL
  have hLfind := calculateDriverLapData_find lapTimings driverIds L hL
  have hLcum : ∀ (k : ℤ),
      ((calculateLeaderTimes lapTimings).lookup k).getD 0 =
        seriesCumAt (calculateDriverLapData lapTimings driverIds) L k := by
    intro k
    simp only [seriesCumAt, hLfind]
    rw [calculateLeaderTimes,
      leaderTimesGo_lookup (averageLapTime lapTimings) L lapTimings 0 [] k h1 h2]
    cases hf : (driverLapsGo (averageLapTime lapTimings) L lapTimings 0).find?
        (fun e => e.lap == k) with
    | some e => rfl
    | none => rfl
  have hLpos : ∀ (k : ℤ),
      0 ≤ seriesCumAt (calculateDriverLapData lapTimings driverIds) L k := by
    intro k
    simp only [seriesCumAt, hLfind]
    cases hf : (driverLapsGo (averageLapTime lapTimings) L lapTimings 0).find?
        (fun e => e.lap == k) with
    | some e =>
        have hmem := List.mem_of_find?_eq_some hf
        have := (driverLapsGo_cum_strict_mono (averageLapTime lapTimings) L
          lapTimings 0 h3).1 e hmem
        simpa using le_of_lt this
    | none => simp
  cases hfd : (calculateDriverLapData lapTimings driverIds).find?
      (fun p => p.driverId == d) with
  | none =>
      simp only [driverStateAt, hfd]
      rw [if_neg (by norm_num : ¬(0 : ℤ) = 1)]
      have hd0 : seriesCumAt (calculateDriverLapData lapTimings driverIds) d 0
          = 0 := by
        simp only [seriesCumAt, hfd]
      rw [hd0]
      have := hLpos 0
      rw [zero_sub]
      exact (max_eq_left (by linarith)).symm
  | some dd =>
      by_cases hempty : dd.laps = []
      · simp only [driverStateAt, hfd, if_pos hempty]
        rw [if_neg (by norm_num : ¬(0 : ℤ) = 1)]
        have hd0 : seriesCumAt (calculateDriverLapData lapTimings driverIds) d 0
            = 0 := by
          simp only [seriesCumAt, hfd, hempty, List.find?_nil]
          simp
        rw [hd0]
        have := hLpos 0
        rw [zero_sub]
        exact (max_eq_left (by linarith)).symm
      · simp only [driverStateAt, hfd, if_neg hempty]
        by_cases hpos1 :
            (interpolatePosition dd t totalLaps).position = 1
        · rw [if_pos hpos1, if_pos hpos1]
        · rw [if_neg hpos1, if_neg hpos1]
          have hd : seriesCumAt (calculateDriverLapData lapTimings driverIds) d
              (interpolatePosition dd t totalLaps).lap =
              ((dd.laps.find? (fun l =>
                  l.lap == (interpolatePosition dd t totalLaps).lap)).map
                (fun l => l.cumulativeTimeInMs)).getD 0 := by
            simp only [seriesCumAt, hfd]
          rw [hd, ← hLcum]


/-- Two-lap input with a leader change: "a" holds position 1 on lap 1,
"b" on lap 2 (cumulatives: a: 8, 17; b: 10, 16). -/
def exC3 : List LapTiming :=
  [⟨1, [⟨"a", 1, 1, 8⟩, ⟨"b", 1, 2, 10⟩]⟩,
    ⟨2, [⟨"b", 2, 1, 6⟩, ⟨"a", 2, 2, 9⟩]⟩]

/-- Its processed series. -/
def exC3pd : List ProcessedLapData := calculateDriverLapData exC3 ["a", "b"]

/-- The timeline generated from it at a 15 ms sampling interval
(frames at 0 and 15). -/
def exC3tl : RaceTimeline :=
  generateRaceTimeline 2 ["a", "b"] exC3 exC3pd [] [] [] none 15

set_option maxHeartbeats 1000000 in
/-- **C3** (counterexample): in the generated frame at 15 ms — frame 1 of
the timeline — "a" sits at position 2 on lap 2 with `gapToLeader = 3`,
computed against the per-lap leader-time sum 8 + 6 = 14; the claim's
reading (the cumulative 17 of "a" minus the cumulative 16 of "b", who
held position 1 at lap 2) gives `max 0 (17 − 16) = 1 ≠ 3`. -/
theorem C3_counterexample :
    (generateFrame 15 ["a", "b"] exC3pd (createPitStopMap []) [] []
        none (calculateLeaderTimes exC3) 2).drivers.map
        (fun s => (s.driverId, s.position, s.lap, s.gapToLeader)) =
      [("b", 1, 2, 0), ("a", 2, 2, 3)] ∧
    exC3tl.frames.getD 1 ⟨0, [], []⟩ =
      generateFrame 15 ["a", "b"] exC3pd (createPitStopMap []) [] []
        none (calculateLeaderTimes exC3) 2 ∧
    seriesCumAt exC3pd "a" 2 = 17 ∧
    seriesCumAt exC3pd "b" 2 = 16 ∧
    max 0 ((17 : ℚ) - 16) = 1 ∧
    (3 : ℚ) ≠ 1 := by
  have hba : (("b" : String) == "a") = false := by decide
  have hab : (("a" : String) == "b") = false := by decide
  have haa : (("a" : String) == "a") = true := by decide
  have hbb : (("b" : String) == "b") = true := by decide
  have h11 : ((1 : ℤ) == 1) = true := by decide
  have h12 : ((1 : ℤ) == 2) = false := by decide
  have h21 : ((2 : ℤ) == 1) = false := by decide
  have h22 : ((2 : ℤ) == 2) = true := by decide
  have ha : driverStateAt 15 exC3pd (createPitStopMap []) [] none
      (calculateLeaderTimes exC3) 2 "a" =
      ⟨"a", 2, 700/9, 2, false, false, false, 3, 9⟩ := by
    norm_num [driverStateAt, interpolatePosition, interpGo, createPitStopMap,
      pitStopMapGo, calculateLeaderTimes, leaderTimesGo, exC3pd, exC3,
      calculateDriverLapData, averageLapTime, lapTimeStats, driverLapsGo,
      setAssoc, List.lookup, List.cons_ne_nil, hba, hab, haa, hbb,
      h11, h12, h21, h22]
  have hb : driverStateAt 15 exC3pd (createPitStopMap []) [] none
      (calculateLeaderTimes exC3) 2 "b" =
      ⟨"b", 1, 250/3, 2, false, false, false, 0, 6⟩ := by
    norm_num [driverStateAt, interpolatePosition, interpGo, createPitStopMap,
      pitStopMapGo, calculateLeaderTimes, leaderTimesGo, exC3pd, exC3,
      calculateDriverLapData, averageLapTime, lapTimeStats, driverLapsGo,
      setAssoc, List.lookup, List.cons_ne_nil, hba, hab, haa, hbb,
      h11, h12, h21, h22]
  refine ⟨?_, ?_, ?_, ?_, by norm_num, by norm_num⟩
  · norm_num [generateFrame, ha, hb, sortStates, insertState, statePosLe]
  · simp only [exC3tl, generateRaceTimeline]
    norm_num [frameCount, calculateRaceDuration, raceDurationGo, raceDurationLap,
      setAssoc, List.lookup, exC3, List.cons_ne_nil, List.flatMap_cons,
      List.flatMap_nil, hba, hab, haa, hbb,
      show List.range 2 = [0, 1] from by decide]
  · norm_num [exC3pd, exC3, seriesCumAt, calculateDriverLapData, averageLapTime,
      lapTimeStats, driverLapsGo, hba, hab, haa, hbb, h11, h12, h21, h22]
  · norm_num [exC3pd, exC3, seriesCumAt, calculateDriverLapData, averageLapTime,
      lapTimeStats, driverLapsGo, hba, hab, haa, hbb, h11, h12, h21, h22]


/-- Two-lap input with a sustained leader "a". -/
def exC3w : List LapTiming :=
  [⟨1, [⟨"a", 1, 1, 10⟩, ⟨"b", 1, 2, 12⟩]⟩,
    ⟨2, [⟨"a", 2, 1, 10⟩, ⟨"b", 2, 2, 12⟩]⟩]

/-- **C3** (witness): the gap formula applied at a concrete sustained-leader
input, time 15 ms, competitor "b". -/
theorem C3_witness :
    (driverStateAt 15 (calculateDriverLapData exC3w ["a", "b"])
        (createPitStopMap []) [] none (calculateLeaderTimes exC3w) 2
        "b").gapToLeader =
      if (driverStateAt 15 (calculateDriverLapData exC3w ["a", "b"])
          (createPitStopMap []) [] none (calculateLeaderTimes exC3w) 2
          "b").position = 1 then 0
      else
        max 0 (seriesCumAt (calculateDriverLapData exC3w ["a", "b"]) "b"
            (driverStateAt 15 (calculateDriverLapData exC3w ["a", "b"])
              (createPitStopMap []) [] none (calculateLeaderTimes exC3w) 2
              "b").lap -
          seriesCumAt (calculateDriverLapData exC3w ["a", "b"]) "a"
            (driverStateAt 15 (calculateDriverLapData exC3w ["a", "b"])
              (createPitStopMap []) [] none (calculateLeaderTimes exC3w) 2
              "b").lap) :=
  C3_gap_to_leader exC3w ["a", "b"] "a" [] [] none 2 15 "b"
    (by
      intro lt hlt
      rcases show lt = ⟨1, [⟨"a", 1, 1, 10⟩, ⟨"b", 1, 2, 12⟩]⟩ ∨
          lt = ⟨2, [⟨"a", 2, 1, 10⟩, ⟨"b", 2, 2, 12⟩]⟩ by
        simpa [exC3w] using hlt with rfl | rfl
      · exact ⟨⟨"a", 1, 1, 10⟩, by simp [List.find?], by simp [List.find?], rfl⟩
      · exact ⟨⟨"a", 2, 1, 10⟩, by simp [List.find?], by simp [List.find?], rfl⟩)
    (by simp [exC3w])
    (by
      intro lt hlt x hx
      rcases show lt = ⟨1, [⟨"a", 1, 1, 10⟩, ⟨"b", 1, 2, 12⟩]⟩ ∨
          lt = ⟨2, [⟨"a", 2, 1, 10⟩, ⟨"b", 2, 2, 12⟩]⟩ by
        simpa [exC3w] using hlt with rfl | rfl <;>
      · rcases List.mem_cons.mp hx with rfl | hx2
        · norm_num
        · rcases List.mem_cons.mp hx2 with rfl | hx3
          · norm_num
          · simp at hx3)
    (by simp)

/-- **C9**: with a timeline loaded, `seekTo` stores exactly the clamp of
its target into `[0, totalDurationMs]` (never negative, and at most the
total duration whenever that is non-negative), updates the derived frame
index, and leaves `isPlaying` unchanged; `seekTo (-100)` yields clock 0;
and a tick whose advanced clock reaches `totalDurationMs` clamps the
clock to it and clears `isPlaying`. -/
theorem C9_seek_clamp_and_end_pause :
    ∀ (tl : RaceTimeline) (t : ℚ) (s : PlaybackState),
      (seekTo (some tl) t s).currentTimeMs = max 0 (min t tl.totalDurationMs) ∧
      0 ≤ (seekTo (some tl) t s).currentTimeMs ∧
      (0 ≤ tl.totalDurationMs →
        (seekTo (some tl) t s).currentTimeMs ≤ tl.totalDurationMs) ∧
      (seekTo (some tl) t s).currentFrameIndex =
        findFrameIndex (some tl) (max 0 (min t tl.totalDurationMs)) ∧
      (seekTo (some tl) t s).isPlaying = s.isPlaying ∧
      (seekTo (some tl) (-100) s).currentTimeMs = 0 ∧
      ∀ (deltaMs : ℚ),
        tl.totalDurationMs ≤ s.currentTimeMs + deltaMs * s.speed * 20 →
          animateStep (some tl) deltaMs s =
            ⟨false, tl.totalDurationMs, s.speed, (tl.frames.length : ℤ) - 1⟩ := by
  intro tl t s
  refine ⟨rfl, le_max_left 0 _, fun h0 => ?_, rfl, rfl, ?_, fun deltaMs h => ?_⟩
  · exact max_le h0 (min_le_right t _)
  · show max 0 (min (-100 : ℚ) tl.totalDurationMs) = 0
    have : min (-100 : ℚ) tl.totalDurationMs ≤ 0 :=
      le_trans (min_le_left _ _) (by norm_num)
    exact max_eq_left this
  · simp only [animateStep, if_pos h]

/-- Witness timeline for the playback claims: duration 100 ms, no frames. -/
def tlC9 : RaceTimeline := ⟨0, [], 100, [], []⟩

/-- **C9** (witness): the theorem applied at a concrete timeline, seek
target and tick. -/
theorem C9_witness :
    (seekTo (some tlC9) 50 initialPlaybackState).currentTimeMs ≤
      tlC9.totalDurationMs ∧
    animateStep (some tlC9) 5 initialPlaybackState =
      ⟨false, 100, 1, -1⟩ := by
  constructor
  · exact (C9_seek_clamp_and_end_pause tlC9 50 initialPlaybackState).2.2.1
      (by norm_num [tlC9])
  · have h := (C9_seek_clamp_and_end_pause tlC9 5 initialPlaybackState).2.2.2.2.2.2
      5 (by norm_num [tlC9, initialPlaybackState])
    simpa [tlC9, initialPlaybackState] using h

end RaceSim
